import Mathlib

/-!
# Shallow embedding of `tiny-uom-fork` (src/lib.rs, src/si.rs)

The crate defines, through the `quantity_impl!` macro instantiated as
`quantity_impl!(f32, Quantity, i8, m, kg, s, A, K, mol, cd)`, a struct
`Quantity<const m: i8, …, const cd: i8> { value: f32 }` together with the
following operator impls (and nothing else):

* `Add<Quantity<U>> for Quantity<U>` and `AddAssign` (same exponent vector);
* `Sub<Quantity<U>> for Quantity<U>` and `SubAssign` (same exponent vector);
* `Mul<f32> for Quantity<U>`, `Mul<Quantity<U>> for f32`, `MulAssign<f32>`;
* `Div<f32> for Quantity<U>`, `DivAssign<f32>`;
* derived `PartialEq` (field-wise `f32` equality) and `Display`.

`src/si.rs` provides the unit constants `s, m, kg, A, K, mol, cd`, each with
scalar `1.0`.

The backing scalar `f32` is modelled by IEEE-754 binary32 semantics: an
inductive with NaN, signed infinities and finite values carried as exact
rationals, with round-to-nearest, ties-to-even applied after each exact
rational operation (precision 24 bits, subnormal grid exponent −149,
overflow to infinity at magnitude ≥ 2^128).  Signed zero is collapsed to a
single zero: IEEE equality identifies `-0.0` and `+0.0`, and no claim here
observes the sign of a zero.
-/

section TinyUom

-- Batteries marks rational arithmetic `irreducible`; evaluation by `decide`
-- needs the definitions unfolded (the kernel checks them either way).
attribute [local semireducible] Rat.add Rat.sub Rat.mul Rat.inv

/-- Floor of the base-2 logarithm of a positive natural number, computed by
fuelled halving (the fuel argument only needs to exceed the bit length). -/
def nlog2Aux : Nat → Nat → Nat
  | 0, _ => 0
  | fuel + 1, n => if n ≥ 2 then nlog2Aux fuel (n / 2) + 1 else 0

/-- `nlog2 n = ⌊log₂ n⌋` for `n ≥ 1` (and `0` for `n = 0`). -/
def nlog2 (n : Nat) : Nat := nlog2Aux n n

/-- `2 ^ c` as a rational, for an integer (possibly negative) exponent. -/
def qpow2 (c : Int) : ℚ :=
  if 0 ≤ c then ((2 ^ c.toNat : Nat) : ℚ) else 1 / ((2 ^ (-c).toNat : Nat) : ℚ)

/-- Floor of the base-2 logarithm of a positive rational (junk on `r ≤ 0`):
from the bit lengths of numerator and denominator the answer is pinned to
two candidates, and one exact comparison decides between them. -/
def floorLog2 (r : ℚ) : Int :=
  let c : Int := (nlog2 r.num.natAbs : Int) - (nlog2 r.den : Int)
  if qpow2 c ≤ r then c else c - 1

/-- Round a rational to the nearest integer, ties to even. -/
def rne (x : ℚ) : Int :=
  let n := ⌊x⌋
  let f := x - n
  if f < 1/2 then n
  else if 1/2 < f then n + 1
  else if n % 2 = 0 then n else n + 1

/-- Model of a Rust `f32` value: NaN, a signed infinity (`neg = true` for
`-∞`), or a finite value given as an exact rational.  Finite values produced
by the model's operations are always representable binary32 numbers. -/
inductive F32 where
  | nan : F32
  | inf (neg : Bool) : F32
  | finite (q : ℚ) : F32
deriving DecidableEq, Repr

/-- Round a positive rational to the binary32 grid (round to nearest, ties
to even), returning `+∞` on overflow.  The grid exponent is
`max (⌊log₂ r⌋ − 23) (−149)`: 24 significant bits for normal numbers and the
fixed subnormal grid `2^(−149)` below `2^(−126)`. -/
def roundPos (r : ℚ) : F32 :=
  let k := floorLog2 r
  let g := max (k - 23) (-149)
  let n := rne (r * qpow2 (-g))
  let v := (n : ℚ) * qpow2 g
  if ((2 ^ 128 : Nat) : ℚ) ≤ v then F32.inf false else F32.finite v

/-- Round an arbitrary exact rational result to a binary32 value. -/
def roundF32 (r : ℚ) : F32 :=
  if r = 0 then F32.finite 0
  else if 0 < r then roundPos r
  else
    match roundPos (-r) with
    | F32.inf _ => F32.inf true
    | F32.finite v => F32.finite (-v)
    | F32.nan => F32.nan

/-- IEEE-754 negation. -/
def negF32 : F32 → F32
  | F32.nan => F32.nan
  | F32.inf s => F32.inf (!s)
  | F32.finite q => F32.finite (-q)

/-- IEEE-754 binary32 addition (`f32 +`): NaN propagates, opposite
infinities give NaN, and finite operands are added exactly and rounded. -/
def addF32 : F32 → F32 → F32
  | F32.nan, _ => F32.nan
  | _, F32.nan => F32.nan
  | F32.inf s, F32.inf t => if s = t then F32.inf s else F32.nan
  | F32.inf s, F32.finite _ => F32.inf s
  | F32.finite _, F32.inf t => F32.inf t
  | F32.finite a, F32.finite b => roundF32 (a + b)

/-- IEEE-754 binary32 subtraction (`f32 -`). -/
def subF32 : F32 → F32 → F32
  | F32.nan, _ => F32.nan
  | _, F32.nan => F32.nan
  | F32.inf s, F32.inf t => if s = t then F32.nan else F32.inf s
  | F32.inf s, F32.finite _ => F32.inf s
  | F32.finite _, F32.inf t => F32.inf (!t)
  | F32.finite a, F32.finite b => roundF32 (a - b)

/-- IEEE-754 binary32 multiplication (`f32 *`): NaN propagates,
`∞ × 0` is NaN, signs combine by exclusive or, and finite operands are
multiplied exactly and rounded. -/
def mulF32 : F32 → F32 → F32
  | F32.nan, _ => F32.nan
  | _, F32.nan => F32.nan
  | F32.inf s, F32.inf t => F32.inf (s != t)
  | F32.inf s, F32.finite q =>
      if q = 0 then F32.nan else F32.inf (s != decide (q < 0))
  | F32.finite q, F32.inf t =>
      if q = 0 then F32.nan else F32.inf (t != decide (q < 0))
  | F32.finite a, F32.finite b => roundF32 (a * b)

/-- IEEE-754 binary32 division (`f32 /`): NaN propagates, `∞ / ∞` and
`0 / 0` are NaN, a nonzero finite value divided by zero is a signed
infinity (division by zero is not trapped), a finite value divided by an
infinity is zero, and finite operands are divided exactly and rounded. -/
def divF32 : F32 → F32 → F32
  | F32.nan, _ => F32.nan
  | _, F32.nan => F32.nan
  | F32.inf _, F32.inf _ => F32.nan
  | F32.inf s, F32.finite q => F32.inf (s != decide (q < 0))
  | F32.finite _, F32.inf _ => F32.finite 0
  | F32.finite a, F32.finite b =>
      if b = 0 then (if a = 0 then F32.nan else F32.inf (decide (a < 0)))
      else roundF32 (a / b)

/-- IEEE-754 equality (`f32 ==`): NaN is equal to nothing (itself
included); infinities compare by sign; finite values compare exactly. -/
def beqF32 : F32 → F32 → Bool
  | F32.finite a, F32.finite b => a == b
  | F32.inf s, F32.inf t => s == t
  | _, _ => false

/-- A well-formed `f32` model value: a finite payload is a representable
binary32 number, stated as a fixed point of rounding.  Every value an
actual `f32` can hold satisfies this; the model's operations preserve it. -/
def wfF32 (x : F32) : Bool :=
  match x with
  | F32.finite q => roundF32 q == F32.finite q
  | _ => true

/-- The exponent vector of a quantity: one signed integer exponent per SI
base unit, in the source's parameter order `m, kg, s, A, K, mol, cd`
(the Rust exponents are `i8`; the code never computes on them, so they are
modelled as unbounded integers). -/
structure UnitExp where
  m : Int
  kg : Int
  s : Int
  A : Int
  K : Int
  mol : Int
  cd : Int
deriving DecidableEq, Repr

/-- `Quantity<m, kg, s, A, K, mol, cd> { value: f32 }`: the raw value and
its unit, the unit living only in the type. -/
structure Quantity (u : UnitExp) where
  value : F32
deriving DecidableEq, Repr

/-- `Quantity::new`: wrap a raw value. -/
def Quantity.new (u : UnitExp) (value : F32) : Quantity u := ⟨value⟩

/-- `impl Add<Quantity<U>> for Quantity<U>`: `self.value + rhs.value`. -/
def Quantity.add {u : UnitExp} (self rhs : Quantity u) : Quantity u :=
  ⟨addF32 self.value rhs.value⟩

/-- `impl AddAssign<Quantity<U>> for Quantity<U>`: `self.value += rhs.value`,
modelled by returning the updated left operand. -/
def Quantity.add_assign {u : UnitExp} (self rhs : Quantity u) : Quantity u :=
  ⟨addF32 self.value rhs.value⟩

/-- `impl Sub<Quantity<U>> for Quantity<U>`: `self.value - rhs.value`. -/
def Quantity.sub {u : UnitExp} (self rhs : Quantity u) : Quantity u :=
  ⟨subF32 self.value rhs.value⟩

/-- `impl SubAssign<Quantity<U>> for Quantity<U>`: `self.value -= rhs.value`,
modelled by returning the updated left operand. -/
def Quantity.sub_assign {u : UnitExp} (self rhs : Quantity u) : Quantity u :=
  ⟨subF32 self.value rhs.value⟩

/-- `impl Mul<f32> for Quantity<U>`: `self.value * rhs`. -/
def Quantity.mul {u : UnitExp} (self : Quantity u) (rhs : F32) : Quantity u :=
  ⟨mulF32 self.value rhs⟩

/-- `impl Mul<Quantity<U>> for f32`: `self * rhs.value`. -/
def f32MulQuantity {u : UnitExp} (self : F32) (rhs : Quantity u) : Quantity u :=
  ⟨mulF32 self rhs.value⟩

/-- `impl MulAssign<f32> for Quantity<U>`: `self.value *= rhs`, modelled by
returning the updated left operand. -/
def Quantity.mul_assign {u : UnitExp} (self : Quantity u) (rhs : F32) :
    Quantity u :=
  ⟨mulF32 self.value rhs⟩

/-- `impl Div<f32> for Quantity<U>`: `self.value / rhs`. -/
def Quantity.div {u : UnitExp} (self : Quantity u) (rhs : F32) : Quantity u :=
  ⟨divF32 self.value rhs⟩

/-- `impl DivAssign<f32> for Quantity<U>`: `self.value /= rhs`, modelled by
returning the updated left operand. -/
def Quantity.div_assign {u : UnitExp} (self : Quantity u) (rhs : F32) :
    Quantity u :=
  ⟨divF32 self.value rhs⟩

/-- Derived `PartialEq` of `Quantity`: field-wise, so `f32` equality of the
`value` fields (the exponent vectors already agree at the type level). -/
def Quantity.beq {u : UnitExp} (self rhs : Quantity u) : Bool :=
  beqF32 self.value rhs.value

/-- The exponent vector of a quantity, read off its type. -/
def unitOf {u : UnitExp} (_ : Quantity u) : UnitExp := u

/-- An operand type of the crate's operator impls: the backing scalar
`f32`, or `Quantity` at some exponent vector. -/
inductive Ty where
  | f32 : Ty
  | quantity (u : UnitExp) : Ty
deriving DecidableEq, Repr

/-- A binary operator symbol. -/
inductive Op where
  | add : Op
  | sub : Op
  | mul : Op
  | div : Op
deriving DecidableEq, Repr

/-- The binary operator impls `src/lib.rs` provides, as a table from the
operator and the operand types to the output type (`none` when no impl
exists and the expression does not compile): `Add`/`Sub` only between two
quantities of the same exponent vector, `Mul` between a quantity and `f32`
in either order, `Div` only of a quantity by `f32`.  There is no impl of
`Mul` or `Div` between two quantities. -/
def implOutput : Op → Ty → Ty → Option Ty
  | Op.add, Ty.quantity u, Ty.quantity v =>
      if u = v then some (Ty.quantity u) else none
  | Op.sub, Ty.quantity u, Ty.quantity v =>
      if u = v then some (Ty.quantity u) else none
  | Op.mul, Ty.quantity u, Ty.f32 => some (Ty.quantity u)
  | Op.mul, Ty.f32, Ty.quantity u => some (Ty.quantity u)
  | Op.div, Ty.quantity u, Ty.f32 => some (Ty.quantity u)
  | _, _, _ => none

namespace values

/-- `pub const s: Quantity<0, 0, 1, 0, 0, 0, 0> = Quantity { value: 1.0 }`
(time in seconds). -/
def s : Quantity ⟨0, 0, 1, 0, 0, 0, 0⟩ := ⟨F32.finite 1⟩

/-- `pub const m: Quantity<1, 0, 0, 0, 0, 0, 0> = Quantity { value: 1.0 }`
(length in metre). -/
def m : Quantity ⟨1, 0, 0, 0, 0, 0, 0⟩ := ⟨F32.finite 1⟩

/-- `pub const kg: Quantity<0, 1, 0, 0, 0, 0, 0> = Quantity { value: 1.0 }`
(mass in kilogram). -/
def kg : Quantity ⟨0, 1, 0, 0, 0, 0, 0⟩ := ⟨F32.finite 1⟩

/-- `pub const A: Quantity<0, 0, 0, 0, 0, 0, 0> = Quantity { value: 1.0 }`
(electric current in ampere — note the all-zero exponent vector in the
source). -/
def A : Quantity ⟨0, 0, 0, 0, 0, 0, 0⟩ := ⟨F32.finite 1⟩

/-- `pub const K: Quantity<0, 0, 0, 0, 0, 0, 0> = Quantity { value: 1.0 }`
(temperature in kelvin — note the all-zero exponent vector in the
source). -/
def K : Quantity ⟨0, 0, 0, 0, 0, 0, 0⟩ := ⟨F32.finite 1⟩

/-- `pub const mol: Quantity<0, 0, 0, 0, 0, 0, 0> = Quantity { value: 1.0 }`
(amount of substance in mole — note the all-zero exponent vector in the
source). -/
def mol : Quantity ⟨0, 0, 0, 0, 0, 0, 0⟩ := ⟨F32.finite 1⟩

/-- `pub const cd: Quantity<0, 0, 0, 0, 0, 0, 0> = Quantity { value: 1.0 }`
(luminous intensity in candela — note the all-zero exponent vector in the
source). -/
def cd : Quantity ⟨0, 0, 0, 0, 0, 0, 0⟩ := ⟨F32.finite 1⟩

end values

/-- The exponent vector the spec's words assign to the ampere constant —
"a single 1 in the position of that base dimension and 0 elsewhere", the
ampere being the fourth parameter in the source's order
`m, kg, s, A, K, mol, cd`.  Stated from the spec only, for comparison with
the constant the source actually defines. -/
def specAmpereExp : UnitExp := ⟨0, 0, 0, 1, 0, 0, 0⟩

/-- C1: the claim says the quantity-by-quantity product is defined, with
`3.0 metres * 3.0 metres` of exponent vector `{length: 2}`.  Evaluating the
crate's operator-impl table at two metre-typed operands: no `Mul` impl
between two quantities exists, so the product does not compile.  (The only
multiplications provided are quantity × `f32` and `f32` × quantity.) -/
theorem mul_quantity_quantity_not_defined :
    implOutput Op.mul (Ty.quantity (unitOf values.m))
      (Ty.quantity (unitOf values.m)) = none := by
  decide

/-- C2: the claim says the quantity-by-quantity quotient is defined, with
`10.0 metres / 2.0 seconds` yielding scalar `5.0` of exponent vector
`{length: 1, time: -1}`.  Evaluating the operator-impl table at a
metre-typed and a second-typed operand: no `Div` impl between two
quantities exists, so the quotient does not compile.  The backing scalar
division itself does take `10.0 / 2.0` to `5.0`. -/
theorem div_quantity_quantity_not_defined :
    implOutput Op.div (Ty.quantity (unitOf values.m))
      (Ty.quantity (unitOf values.s)) = none ∧
    divF32 (F32.finite 10) (F32.finite 2) = F32.finite 5 := by
  exact ⟨by decide, by decide⟩

/-- C3: addition and subtraction are defined exactly for two quantities of
identical exponent vectors (the impl table yields an output type precisely
when the vectors agree, so a mismatch such as metre + second does not
compile), and on a common exponent vector `E` they return a quantity of
type `Quantity E` whose scalar is the `f32` sum (resp. difference) of the
operand scalars. -/
theorem add_sub_require_same_exponents :
    (∀ (u : UnitExp) (a b : Quantity u),
        Quantity.add a b = ⟨addF32 a.value b.value⟩ ∧
        Quantity.sub a b = ⟨subF32 a.value b.value⟩) ∧
    (∀ u v : UnitExp,
        (implOutput Op.add (Ty.quantity u) (Ty.quantity v)).isSome
          = decide (u = v) ∧
        (implOutput Op.sub (Ty.quantity u) (Ty.quantity v)).isSome
          = decide (u = v)) ∧
    implOutput Op.add (Ty.quantity (unitOf values.m))
      (Ty.quantity (unitOf values.s)) = none := by
  refine ⟨fun u a b => ⟨rfl, rfl⟩, fun u v => ?_, by decide⟩
  by_cases h : u = v <;> simp [implOutput, h]

/-- C4: the claim says every named unit constant has scalar `1.0` and a
single 1 at its own base dimension.  The source's `A` (ampere) has the
all-zero exponent vector instead — as do `K`, `mol` and `cd`, which all
collapse onto the same dimensionless type — contradicting both the claim
and the constants' own doc comments; `m`, `s` and `kg` are as claimed, and
every constant's scalar is `1.0`. -/
theorem ampere_kelvin_mole_candela_dimensionless :
    unitOf values.A = ⟨0, 0, 0, 0, 0, 0, 0⟩ ∧
    unitOf values.A ≠ specAmpereExp ∧
    unitOf values.K = unitOf values.A ∧
    unitOf values.mol = unitOf values.A ∧
    unitOf values.cd = unitOf values.A ∧
    values.A.value = F32.finite 1 ∧ values.K.value = F32.finite 1 ∧
    values.mol.value = F32.finite 1 ∧ values.cd.value = F32.finite 1 ∧
    unitOf values.m = ⟨1, 0, 0, 0, 0, 0, 0⟩ ∧
    unitOf values.s = ⟨0, 0, 1, 0, 0, 0, 0⟩ ∧
    unitOf values.kg = ⟨0, 1, 0, 0, 0, 0, 0⟩ ∧
    values.m.value = F32.finite 1 ∧ values.s.value = F32.finite 1 ∧
    values.kg.value = F32.finite 1 := by
  decide

/-- C5: a quantity may be multiplied by a bare `f32` from either side and
divided by one, the result staying at the same exponent vector (the
operations return `Quantity u` for an input `Quantity u`, and the impl
table confirms those are the impls provided) with the scalar multiplied
(resp. divided); concretely `5.0 metres * 2.0` has scalar `10.0` and is
still metre-typed. -/
theorem scalar_mul_div_keep_exponents :
    (∀ (u : UnitExp) (q : Quantity u) (c : F32),
        Quantity.mul q c = ⟨mulF32 q.value c⟩ ∧
        f32MulQuantity c q = ⟨mulF32 c q.value⟩ ∧
        Quantity.div q c = ⟨divF32 q.value c⟩) ∧
    Quantity.mul (⟨F32.finite 5⟩ : Quantity ⟨1, 0, 0, 0, 0, 0, 0⟩)
      (F32.finite 2) = ⟨F32.finite 10⟩ ∧
    implOutput Op.mul (Ty.quantity (unitOf values.m)) Ty.f32
      = some (Ty.quantity (unitOf values.m)) ∧
    implOutput Op.mul Ty.f32 (Ty.quantity (unitOf values.m))
      = some (Ty.quantity (unitOf values.m)) ∧
    implOutput Op.div (Ty.quantity (unitOf values.m)) Ty.f32
      = some (Ty.quantity (unitOf values.m)) := by
  exact ⟨fun u q c => ⟨rfl, rfl, rfl⟩, by decide, by decide, by decide,
    by decide⟩

/-- C6 counterexample: multiplying a kilogram-typed quantity by the `kg`
unit constant (also kilogram-typed) needs a `Mul` impl between two
quantities, which the crate does not provide — the impl table yields no
output type, so the claimed identity-law product does not compile. -/
theorem mul_by_unit_constant_undefined :
    implOutput Op.mul (Ty.quantity (unitOf values.kg))
      (Ty.quantity (unitOf values.kg)) = none := by
  decide

/-- C6 amended: a quantity cannot be multiplied by its unit constant (no
quantity-by-quantity `Mul` exists); the identity that does hold is scaling
by the bare scalar `1.0` — the value every unit constant carries — which
leaves a well-formed scalar and the exponent vector unchanged. -/
theorem mul_scalar_one_identity (u : UnitExp) (q : Quantity u)
    (h : wfF32 q.value = true) : Quantity.mul q (F32.finite 1) = q := by
  obtain ⟨x⟩ := q
  cases x with
  | nan => rfl
  | inf s => cases s <;> rfl
  | finite v =>
    have h' : roundF32 v = F32.finite v := by
      simpa [wfF32] using h
    simp [Quantity.mul, mulF32, mul_one, h']

/-- C6 amended, witness: the identity at the concrete metre-typed quantity
of scalar `5.0`. -/
theorem mul_scalar_one_identity_witness :
    wfF32 (F32.finite 5) = true ∧
    Quantity.mul (⟨F32.finite 5⟩ : Quantity ⟨1, 0, 0, 0, 0, 0, 0⟩)
      (F32.finite 1) = ⟨F32.finite 5⟩ :=
  ⟨by decide,
    mul_scalar_one_identity ⟨1, 0, 0, 0, 0, 0, 0⟩ ⟨F32.finite 5⟩ (by decide)⟩

/-- C7 counterexample: `(a + b) - b == a` fails on the code.  With
`a = 1.0`, `b = 33554432.0 = 2^25` (both exactly representable `f32`
values, metre-typed), the sum rounds to `2^25`, so `(a + b) - b` is `0.0`,
off from `a = 1.0` by 100 % of `a`; and with `b = +∞` the result is NaN,
which no floating-point tolerance brings back to `a` (every comparison
with NaN is false). -/
theorem add_sub_cancel_fails :
    (Quantity.sub
        (Quantity.add (⟨F32.finite 1⟩ : Quantity ⟨1, 0, 0, 0, 0, 0, 0⟩)
          ⟨F32.finite 33554432⟩)
        ⟨F32.finite 33554432⟩).value = F32.finite 0 ∧
    F32.finite (0 : ℚ) ≠ F32.finite 1 ∧
    (Quantity.sub
        (Quantity.add (⟨F32.finite 1⟩ : Quantity ⟨1, 0, 0, 0, 0, 0, 0⟩)
          ⟨F32.inf false⟩)
        ⟨F32.inf false⟩).value = F32.nan ∧
    beqF32 F32.nan (F32.finite 1) = false := by
  exact ⟨by decide, by decide, by decide, by decide⟩

/-- C7 amended: for all quantities `a`, `b` of identical exponent vector
`E`, `a + b` has exponent vector `E` (it is again a `Quantity E`) and
scalar `a.value + b.value`; and `(a + b) - b = a` holds exactly whenever
the scalars are finite, `a.value` is representable and the exact sum
`a.value + b.value` is representable (no rounding in the addition).  In
general — rounding, or an infinite `b` — `(a + b) - b` can differ from
`a`, even being NaN. -/
theorem add_sub_cancel_exact :
    (∀ (u : UnitExp) (a b : Quantity u),
        Quantity.add a b = ⟨addF32 a.value b.value⟩) ∧
    ∀ (u : UnitExp) (a b : ℚ),
      roundF32 a = F32.finite a →
      roundF32 (a + b) = F32.finite (a + b) →
      Quantity.sub
          (Quantity.add (⟨F32.finite a⟩ : Quantity u) ⟨F32.finite b⟩)
          ⟨F32.finite b⟩ = ⟨F32.finite a⟩ := by
  refine ⟨fun u a b => rfl, fun u a b h1 h2 => ?_⟩
  simp only [Quantity.add, addF32, h2, Quantity.sub, subF32]
  rw [add_sub_cancel_right, h1]

/-- C7 amended, witness: exact cancellation at `a = 1.0`, `b = 2.0`
(metre-typed). -/
theorem add_sub_cancel_exact_witness :
    roundF32 1 = F32.finite 1 ∧ roundF32 (1 + 2) = F32.finite (1 + 2) ∧
    Quantity.sub
        (Quantity.add (⟨F32.finite 1⟩ : Quantity ⟨1, 0, 0, 0, 0, 0, 0⟩)
          ⟨F32.finite 2⟩)
        ⟨F32.finite 2⟩ = ⟨F32.finite 1⟩ :=
  ⟨by decide, by decide,
    add_sub_cancel_exact.2 ⟨1, 0, 0, 0, 0, 0, 0⟩ 1 2 (by decide) (by decide)⟩

/-- C8: each in-place operator returns the left operand with only its
scalar replaced — the result is again a `Quantity u`, so the exponent
vector (the type) is untouched — and that scalar is exactly the one the
corresponding binary operator produces. -/
theorem assign_ops_match_binary_ops :
    ∀ (u : UnitExp) (a b : Quantity u) (c : F32),
      Quantity.add_assign a b = Quantity.add a b ∧
      Quantity.sub_assign a b = Quantity.sub a b ∧
      Quantity.mul_assign a c = Quantity.mul a c ∧
      Quantity.div_assign a c = Quantity.div a c :=
  fun _ _ _ _ => ⟨rfl, rfl, rfl, rfl⟩

/-- C9: every operation of the embedding is a total function of its
operands — construction and the eight operators always return a quantity,
never an error: division by a zero scalar yields an infinity or NaN value
rather than trapping, and unit compatibility for add/sub is decided purely
at the type level by the impl table (an impl exists iff the exponent
vectors coincide), so no runtime unit-mismatch path exists. -/
theorem operators_total_no_error :
    (∀ (u : UnitExp) (a b : Quantity u) (c : F32),
        Quantity.add a b = ⟨addF32 a.value b.value⟩ ∧
        Quantity.sub a b = ⟨subF32 a.value b.value⟩ ∧
        Quantity.mul a c = ⟨mulF32 a.value c⟩ ∧
        Quantity.div a c = ⟨divF32 a.value c⟩ ∧
        Quantity.new u c = ⟨c⟩) ∧
    divF32 (F32.finite 1) (F32.finite 0) = F32.inf false ∧
    divF32 (F32.finite (-1)) (F32.finite 0) = F32.inf true ∧
    divF32 (F32.finite 0) (F32.finite 0) = F32.nan ∧
    ∀ u v : UnitExp,
      (implOutput Op.add (Ty.quantity u) (Ty.quantity v)).isSome
        = decide (u = v) := by
  refine ⟨fun u a b c => ⟨rfl, rfl, rfl, rfl, rfl⟩, by decide, by decide,
    by decide, fun u v => ?_⟩
  by_cases h : u = v <;> simp [implOutput, h]

/-- C10: equality of two quantities of one exponent vector is the IEEE-754
equality of their backing scalars (the derived `PartialEq` compares the
single `value` field), so a NaN-valued quantity is not equal to itself and
quantity equality is not reflexive, while ordinary values compare as
expected. -/
theorem eq_is_scalar_eq_not_reflexive :
    (∀ (u : UnitExp) (a b : Quantity u),
        Quantity.beq a b = beqF32 a.value b.value) ∧
    Quantity.beq (⟨F32.nan⟩ : Quantity ⟨1, 0, 0, 0, 0, 0, 0⟩) ⟨F32.nan⟩
      = false ∧
    Quantity.beq (⟨F32.finite 2⟩ : Quantity ⟨1, 0, 0, 0, 0, 0, 0⟩)
      ⟨F32.finite 2⟩ = true :=
  ⟨fun _ _ _ => rfl, by decide, by decide⟩

end TinyUom
